import Mathlib

/-!
Verification of the conversation-state cache and response-orchestration layer
of the minilm dialog system.

The development shallowly embeds three Go components:

* ContextManager (internal/dialog/context_manager.go): bounded per-session
  conversation history with LRU capacity eviction.
* DialogManager (internal/dialog/types.go): backend registry with
  default-then-fallback-chain-then-static-fallback response resolution.
* PromptBuilder (internal/dialog/prompt_builder.go): prompt assembly with a
  byte-budget truncation step.

Modelling conventions:

* Go maps are modelled as association lists (List (String × _)) in one fixed
  iteration order: insertion order, with in-place update on overwrite.  Go map
  iteration order is unspecified; theorems that depend on a scan over the map
  are stated for the model's order and the relevant scans (oldest-session
  search with distinct timestamps) are order-independent.
* A nil Go map (the state after ContextManager.Close) is modelled as
  Option-none; writing to it is a panic.
* Panics are modelled by Option-valued results: none means the Go code panics
  on that input, some x means it returns x.
* time.Time / time.Duration values are modelled as Int nanoseconds since the
  Unix epoch and are passed explicitly to each operation that calls time.Now().
  AddExchange calls time.Now() twice (exchange timestamp and LastUpdated)
  inside one locked section; the model passes a single instant for both.
* float64 fields (confidence, mood, engagement) are modelled as ℚ.  Every
  comparison performed by the embedded code (>, <=, threshold checks against
  0.5 / 0.6 / 80 / 60 / 40 / 20) is exact on the float values the code uses,
  and the order embedding of finite doubles into ℚ preserves them.
* Go strings are modelled as Lean String where only equality/concatenation
  matter, and as UTF-8 byte lists (List Nat) where the code does byte-level
  slicing (PromptBuilder truncation).
* Locks, tickers and goroutines are not modelled: every operation below is the
  body of a single critical section in the source.
-/

set_option maxRecDepth 40000

namespace Minilm

/-- One conversation turn (ConversationExchange in context_manager.go). -/
structure ConversationExchange where
  timestamp : Int
  trigger : String
  response : String
  userFeedback : Bool
  engagementScore : ℚ
  deriving DecidableEq, Repr

/-- Rolling per-session history (ConversationHistory in context_manager.go). -/
structure ConversationHistory where
  interactionID : String
  exchanges : List ConversationExchange
  lastUpdated : Int
  maxLength : Nat
  deriving DecidableEq, Repr

/-- The conversation store (ContextManager in context_manager.go).
conversations is none exactly when the underlying Go map is nil (after Close).
maxConversations keeps the Go int value (nonpositive means unlimited).
The cleanup ticker and mutex are not part of the functional state. -/
structure ContextManager where
  conversations : Option (List (String × ConversationHistory))
  maxHistory : Nat
  maxConversations : Int
  cleanupInterval : Int
  retentionPeriod : Int
  deriving DecidableEq, Repr

/-- NewContextManagerWithConfig: clamps maxHistory to the default 10 when
nonpositive, likewise the two durations; maxConversations is stored as given. -/
def newContextManagerWithConfig (maxHistory maxConversations cleanupInterval retentionPeriod : Int) : ContextManager :=
  let mh : Int := if maxHistory ≤ 0 then 10 else maxHistory
  let ci : Int := if cleanupInterval ≤ 0 then 3600000000000 else cleanupInterval
  let rp : Int := if retentionPeriod ≤ 0 then 86400000000000 else retentionPeriod
  { conversations := some []
    maxHistory := mh.toNat
    maxConversations := maxConversations
    cleanupInterval := ci
    retentionPeriod := rp }

/-- NewContextManager delegates with maxConversations 0 (unlimited), a one
hour cleanup interval and a 24 hour retention period. -/
def newContextManager (maxHistory : Int) : ContextManager :=
  newContextManagerWithConfig maxHistory 0 3600000000000 86400000000000

/-- Lookup in the association-list model of a Go map. -/
def mapLookup (l : List (String × ConversationHistory)) (k : String) : Option ConversationHistory :=
  match l with
  | [] => none
  | p :: rest => if p.1 = k then some p.2 else mapLookup rest k

/-- Map write m[k] = v: in-place update when the key is present, append
otherwise (the model's fixed iteration order). -/
def mapInsert (l : List (String × ConversationHistory)) (k : String) (v : ConversationHistory) : List (String × ConversationHistory) :=
  match l with
  | [] => [(k, v)]
  | p :: rest => if p.1 = k then (k, v) :: rest else p :: mapInsert rest k v

/-- Map delete: removes every entry with the key (at most one when keys are
unique, which insertion maintains). -/
def mapDelete (l : List (String × ConversationHistory)) (k : String) : List (String × ConversationHistory) :=
  l.filter (fun p => p.1 ≠ k)

/-- The scan in evictOldestConversation: first=true flag folded over the map,
keeping the first entry whose LastUpdated is strictly before the current
minimum (history.LastUpdated.Before(oldestTime)). -/
def oldestScan (l : List (String × ConversationHistory)) : Option (String × Int) :=
  l.foldl
    (fun acc p =>
      match acc with
      | none => some (p.1, p.2.lastUpdated)
      | some (oid, ot) => if p.2.lastUpdated < ot then some (p.1, p.2.lastUpdated) else some (oid, ot))
    none

/-- evictOldestConversation: linear scan for the oldest LastUpdated, then
delete — but only when the computed oldestID is not the empty string. -/
def evictOldestConversation (l : List (String × ConversationHistory)) : List (String × ConversationHistory) :=
  if l.length = 0 then l
  else
    match oldestScan l with
    | none => l
    | some (oldestID, _) => if oldestID ≠ "" then mapDelete l oldestID else l

/-- The body of AddExchange once the conversations map (non-nil) is in hand:
get-or-create the session history (with capacity eviction before inserting a
new session), append the exchange, update LastUpdated, and drop the single
oldest entry when the window is exceeded. -/
def addExchangeAux (cm : ContextManager) (interactionID trigger response : String) (now : Int) (convs : List (String × ConversationHistory)) : ContextManager :=
  let acc : List (String × ConversationHistory) × ConversationHistory :=
    match mapLookup convs interactionID with
    | some h => (convs, h)
    | none =>
      let convs2 :=
        if 0 < cm.maxConversations ∧ cm.maxConversations ≤ (convs.length : Int) then
          evictOldestConversation convs
        else convs
      (convs2, { interactionID := interactionID, exchanges := [], lastUpdated := 0, maxLength := cm.maxHistory })
  let ex : ConversationExchange :=
    { timestamp := now, trigger := trigger, response := response
      userFeedback := false, engagementScore := 0 }
  let exs := acc.2.exchanges ++ [ex]
  let exs2 := if acc.2.maxLength < exs.length then exs.drop 1 else exs
  let h2 : ConversationHistory :=
    { acc.2 with exchanges := exs2, lastUpdated := now }
  { cm with conversations := some (mapInsert acc.1 interactionID h2) }

/-- AddExchange: the aux body on a live map; none when the conversations map
is nil (write to nil map panics). -/
def addExchange (cm : ContextManager) (interactionID trigger response : String) (now : Int) : Option ContextManager :=
  match cm.conversations with
  | none => none
  | some convs => some (addExchangeAux cm interactionID trigger response now convs)

/-- GetHistory: the stored exchanges, limited to the most recent maxExchanges
when 0 < maxExchanges; empty for an unknown session (and for a nil map, whose
reads yield zero values). -/
def getHistory (cm : ContextManager) (interactionID : String) (maxExchanges : Int) : List ConversationExchange :=
  match cm.conversations with
  | none => []
  | some convs =>
    match mapLookup convs interactionID with
    | none => []
    | some h =>
      let exs := h.exchanges
      if 0 < maxExchanges ∧ maxExchanges < (exs.length : Int) then
        exs.drop (exs.length - maxExchanges.toNat)
      else exs

/-- GetActiveConversations: the number of tracked sessions (len of a nil map
is 0). -/
def getActiveConversations (cm : ContextManager) : Nat :=
  match cm.conversations with
  | none => 0
  | some convs => convs.length

/-- Close: stops the ticker (not modelled) and sets the conversations map to
nil. -/
def close (cm : ContextManager) : ContextManager :=
  { cm with conversations := none }

/-- A sequence of AddExchange calls: (interactionID, trigger, response, now)
per call.  Propagates a panic. -/
def runAdds (cm : ContextManager) : List (String × String × String × Int) → Option ContextManager
  | [] => some cm
  | op :: rest =>
    match addExchange cm op.1 op.2.1 op.2.2.1 op.2.2.2 with
    | none => none
    | some cm2 => runAdds cm2 rest

/-- Exchanges currently stored for a session (what the rolling window holds). -/
def storedExchanges (cm : ContextManager) (interactionID : String) : List ConversationExchange :=
  match cm.conversations with
  | none => []
  | some convs =>
    match mapLookup convs interactionID with
    | none => []
    | some h => h.exchanges

/-! The DialogManager orchestrator (internal/dialog/types.go).

DialogContext carries the fields the orchestrator and the prompt builder read.
The opaque payload fields (CurrentStats, InteractionHistory, AchievementStatus,
TopicContext, the response Metadata map) are only ever passed through to
backends, which the development quantifies over as arbitrary functions, so they
are not part of the embedded record. -/

/-- DialogContext from types.go (the fields read by the embedded code). -/
structure DialogContext where
  trigger : String
  interactionID : String
  timestamp : Int
  personalityTraits : List (String × ℚ)
  currentMood : ℚ
  currentAnimation : String
  relationshipLevel : String
  timeOfDay : String
  lastResponse : String
  conversationTurn : Int
  fallbackResponses : List String
  fallbackAnimation : String
  deriving DecidableEq, Repr

/-- DialogResponse from types.go. -/
structure DialogResponse where
  text : String
  animation : String
  duration : Int
  confidence : ℚ
  responseType : String
  emotionalTone : String
  topics : List String
  memoryImportance : ℚ
  learningValue : ℚ
  deriving DecidableEq, Repr

/-- The zero value of DialogResponse, returned on every failed attempt. -/
def emptyDialogResponse : DialogResponse :=
  { text := "", animation := "", duration := 0, confidence := 0
    responseType := "", emotionalTone := "", topics := []
    memoryImportance := 0, learningValue := 0 }

/-- A dialog backend: CanHandle plus GenerateResponse, where returning none
models a non-nil Go error (the orchestrator never reads the response value of
a failed call).  UpdateMemory has no effect observable by the orchestrator,
which discards its error, so only its invocation is modelled. -/
structure DialogBackend where
  canHandle : DialogContext → Bool
  generateResponse : DialogContext → Option DialogResponse

/-- The backend registry: stored handles may be nil (none), which Go permits
via RegisterBackend(name, nil); calling a method on such a handle panics. -/
structure DialogManager where
  backends : List (String × Option DialogBackend)
  defaultBackend : String
  fallbackChain : List String
  debug : Bool

/-- Lookup in the backends map. -/
def backendsLookup (l : List (String × Option DialogBackend)) (k : String) : Option (Option DialogBackend) :=
  match l with
  | [] => none
  | p :: rest => if p.1 = k then some p.2 else backendsLookup rest k

/-- Which return site of GenerateDialog produced the response: the default
backend, the fallback chain entry at index i, or the static fallback. -/
inductive Stage where
  | primary : Stage
  | chain : Nat → Stage
  | static : Stage
  deriving DecidableEq, Repr

/-- Instrumentation: one record per backend method call the orchestrator makes
(stage it was made from, backend name, method name).  Ghost data derived from
the call structure of the Go code; it does not influence any result. -/
structure CallEv where
  stage : Stage
  backend : String
  method : String
  deriving DecidableEq, Repr

/-- tryDefaultBackend: requires a configured, registered default backend that
CanHandle the context and returns no error with confidence strictly above 0.5.
Returns none when the stored handle is nil (method call on nil panics);
otherwise the (response, success) pair of the source plus the calls made. -/
def tryDefaultBackend (dm : DialogManager) (ctx : DialogContext) : Option ((DialogResponse × Bool) × List CallEv) :=
  if dm.defaultBackend = "" then some ((emptyDialogResponse, false), [])
  else
    match backendsLookup dm.backends dm.defaultBackend with
    | none => some ((emptyDialogResponse, false), [])
    | some none => none
    | some (some b) =>
      let ev1 : CallEv := { stage := .primary, backend := dm.defaultBackend, method := "CanHandle" }
      if b.canHandle ctx = false then some ((emptyDialogResponse, false), [ev1])
      else
        let ev2 : CallEv := { stage := .primary, backend := dm.defaultBackend, method := "GenerateResponse" }
        match b.generateResponse ctx with
        | none => some ((emptyDialogResponse, false), [ev1, ev2])
        | some r =>
          if r.confidence ≤ 1/2 then some ((emptyDialogResponse, false), [ev1, ev2])
          else some ((r, true), [ev1, ev2])

/-- tryFallbackBackend for the chain entry at index i: registered, CanHandle,
and any non-error result is accepted regardless of confidence. -/
def tryFallbackBackend (dm : DialogManager) (i : Nat) (backendName : String) (ctx : DialogContext) : Option ((DialogResponse × Bool) × List CallEv) :=
  match backendsLookup dm.backends backendName with
  | none => some ((emptyDialogResponse, false), [])
  | some none => none
  | some (some b) =>
    let ev1 : CallEv := { stage := .chain i, backend := backendName, method := "CanHandle" }
    if b.canHandle ctx = false then some ((emptyDialogResponse, false), [ev1])
    else
      let ev2 : CallEv := { stage := .chain i, backend := backendName, method := "GenerateResponse" }
      match b.generateResponse ctx with
      | none => some ((emptyDialogResponse, false), [ev1, ev2])
      | some r => some ((r, true), [ev1, ev2])

/-- tryFallbackChain walking the chain entries from index i: the payload is
some (index, response) on the first success, none when the chain is exhausted. -/
def tryFallbackChainAux (dm : DialogManager) (ctx : DialogContext) (i : Nat) : List String → Option (Option (Nat × DialogResponse) × List CallEv)
  | [] => some (none, [])
  | name :: rest =>
    match tryFallbackBackend dm i name ctx with
    | none => none
    | some ((r, true), evs) => some (some (i, r), evs)
    | some ((_, false), evs) =>
      match tryFallbackChainAux dm ctx (i + 1) rest with
      | none => none
      | some (res, evs2) => some (res, evs ++ evs2)

/-- createFallbackResponse: static fallback synthesized from the context.  The
selection index is int(time.Now().UnixNano()) % len(FallbackResponses); the
model takes that instant as the Nat nowNano (UnixNano is nonnegative for any
realizable clock reading, where Go's % agrees with Nat.mod). -/
def createFallbackResponse (ctx : DialogContext) (nowNano : Nat) : DialogResponse :=
  let response : String :=
    if h : 0 < ctx.fallbackResponses.length then
      ctx.fallbackResponses.get ⟨nowNano % ctx.fallbackResponses.length, Nat.mod_lt nowNano h⟩
    else "Hello! 👋"
  let animation : String := if ctx.fallbackAnimation ≠ "" then ctx.fallbackAnimation else "talking"
  { text := response, animation := animation, duration := 0, confidence := 1/10
    responseType := "fallback", emotionalTone := "", topics := []
    memoryImportance := 0, learningValue := 0 }

/-- The outcome of GenerateDialog: the two Go return values (response and the
error, which is nil at every return site), plus ghost instrumentation (stage
that produced the response and the backend calls made). -/
structure GenOutcome where
  response : DialogResponse
  err : Option String
  stage : Stage
  calls : List CallEv
  deriving DecidableEq, Repr

/-- GenerateDialog: default backend, then the fallback chain, then the static
fallback; none when a stage panics on a nil stored handle. -/
def generateDialog (dm : DialogManager) (ctx : DialogContext) (nowNano : Nat) : Option GenOutcome :=
  match tryDefaultBackend dm ctx with
  | none => none
  | some ((r, true), evs) => some { response := r, err := none, stage := .primary, calls := evs }
  | some ((_, false), evs) =>
    match tryFallbackChainAux dm ctx 0 dm.fallbackChain with
    | none => none
    | some (some (i, r), evs2) =>
      some { response := r, err := none, stage := .chain i, calls := evs ++ evs2 }
    | some (none, evs2) =>
      some { response := createFallbackResponse ctx nowNano, err := none, stage := .static, calls := evs ++ evs2 }

/-- UpdateBackendMemory scans the registry (model iteration order) for the
first backend whose CanHandle is true and forwards the feedback to it with the
error discarded; none when the scan calls CanHandle on a nil handle. -/
def updateMemoryScan (ctx : DialogContext) : List (String × Option DialogBackend) → Option Unit
  | [] => some ()
  | (_, none) :: _ => none
  | (_, some b) :: rest => if b.canHandle ctx then some () else updateMemoryScan ctx rest

/-- UpdateBackendMemory entry point. -/
def updateBackendMemory (dm : DialogManager) (ctx : DialogContext) : Option Unit :=
  updateMemoryScan ctx dm.backends

/-- A registry with no nil stored handle. -/
def NilFreeRegistry (dm : DialogManager) : Prop :=
  ∀ p ∈ dm.backends, p.2.isSome = true

instance (dm : DialogManager) : Decidable (NilFreeRegistry dm) :=
  inferInstanceAs (Decidable (∀ p ∈ dm.backends, p.2.isSome = true))

/-! The PromptBuilder (internal/dialog/prompt_builder.go).

The assembled prompt is a Go string; Build's truncation slices it by BYTES
(result[:maxTokens*4]), so the model renders the assembly as a Lean String
(UTF-8 text, faithful because every piece written by the builder is text) and
then runs the truncation step on its UTF-8 byte list. -/

/-- UTF-8 encoding of one scalar value (the bytes Go stores for the char). -/
def utf8EncodeChar (n : Nat) : List Nat :=
  if n < 128 then [n]
  else if n < 2048 then [192 + n / 64, 128 + n % 64]
  else if n < 65536 then [224 + n / 4096, 128 + (n / 64) % 64, 128 + n % 64]
  else [240 + n / 262144, 128 + (n / 4096) % 64, 128 + (n / 64) % 64, 128 + n % 64]

/-- The UTF-8 bytes of a string: what Go indexes and slices. -/
def goBytes (s : String) : List Nat :=
  (s.data.map (fun c => utf8EncodeChar c.toNat)).flatten

/-- A UTF-8 continuation byte. -/
def contByte (b : Nat) : Bool :=
  decide (128 ≤ b) && decide (b ≤ 191)

/-- RFC 3629 validity of a byte sequence: the formal reading of the spec's
"valid text with no partial multi-byte sequence". -/
def validUtf8 : List Nat → Bool
  | [] => true
  | b :: rest =>
    if b < 128 then validUtf8 rest
    else if 194 ≤ b ∧ b ≤ 223 then
      match rest with
      | c1 :: r => contByte c1 && validUtf8 r
      | [] => false
    else if b = 224 then
      match rest with
      | c1 :: c2 :: r => decide (160 ≤ c1) && decide (c1 ≤ 191) && contByte c2 && validUtf8 r
      | _ => false
    else if (225 ≤ b ∧ b ≤ 236) ∨ b = 238 ∨ b = 239 then
      match rest with
      | c1 :: c2 :: r => contByte c1 && contByte c2 && validUtf8 r
      | _ => false
    else if b = 237 then
      match rest with
      | c1 :: c2 :: r => decide (128 ≤ c1) && decide (c1 ≤ 159) && contByte c2 && validUtf8 r
      | _ => false
    else if b = 240 then
      match rest with
      | c1 :: c2 :: c3 :: r => decide (144 ≤ c1) && decide (c1 ≤ 191) && contByte c2 && contByte c3 && validUtf8 r
      | _ => false
    else if 241 ≤ b ∧ b ≤ 243 then
      match rest with
      | c1 :: c2 :: c3 :: r => contByte c1 && contByte c2 && contByte c3 && validUtf8 r
      | _ => false
    else if b = 244 then
      match rest with
      | c1 :: c2 :: c3 :: r => decide (128 ≤ c1) && decide (c1 ≤ 143) && contByte c2 && contByte c3 && validUtf8 r
      | _ => false
    else false

/-- The builder state (PromptBuilder struct).  maxTokens is a Go int; it is
nonnegative in the constructor (1500) and in every use the claims range over,
so it is carried as a Nat. -/
structure PromptBuilder where
  systemPrompt : String
  personality : String
  history : List ConversationExchange
  context : DialogContext
  template : String
  maxTokens : Nat

/-- Round half to even, the rounding fmt uses for %.1f. -/
def roundHalfEven (q : ℚ) : Int :=
  let f : Int := ⌊q⌋
  let frac : ℚ := q - f
  if frac < 1/2 then f
  else if 1/2 < frac then f + 1
  else if f % 2 = 0 then f else f + 1

/-- fmt.Sprintf with verb %.1f on a finite value (model over ℚ; the float64
arguments the embedded theorems exercise are exactly representable). -/
def fmtDot1 (q : ℚ) : String :=
  let n : Int := roundHalfEven (q * 10)
  let sign : String := if n < 0 then "-" else ""
  let m : Nat := n.natAbs
  sign ++ toString (m / 10) ++ "." ++ toString (m % 10)

/-- describeMood: numeric mood to descriptive text. -/
def describeMood (mood : ℚ) : String :=
  if 80 ≤ mood then "very happy"
  else if 60 ≤ mood then "happy"
  else if 40 ≤ mood then "neutral"
  else if 20 ≤ mood then "sad"
  else "very sad"

/-- describeTrigger: the trigger table, falling back to the raw trigger. -/
def describeTrigger (trigger : String) : String :=
  if trigger = "click" then "clicked on you"
  else if trigger = "rightclick" then "right-clicked on you"
  else if trigger = "hover" then "hovered over you"
  else if trigger = "feed" then "fed you"
  else if trigger = "pet" then "petted you"
  else if trigger = "play" then "wants to play"
  else if trigger = "talk" then "wants to talk"
  else if trigger = "gift" then "gave you a gift"
  else if trigger = "compliment" then "complimented you"
  else if trigger = "ignore" then "ignored you"
  else if trigger = "idle" then "you\x27ve been idle"
  else if trigger = "timer" then "time passed"
  else trigger

/-- formatTimeAgo on the duration now − timestamp, in nanoseconds.  The Go
source converts the duration to float64 minutes/hours/days then truncates;
for the magnitudes involved that is division with truncation. -/
def formatTimeAgo (now timestamp : Int) : String :=
  let d : Int := now - timestamp
  if d < 60000000000 then "just now"
  else if d < 3600000000000 then
    let minutes : Nat := d.toNat / 60000000000
    if minutes = 1 then "1 minute ago" else toString minutes ++ " minutes ago"
  else if d < 86400000000000 then
    let hours : Nat := d.toNat / 3600000000000
    if hours = 1 then "1 hour ago" else toString hours ++ " hours ago"
  else
    let days : Nat := d.toNat / 86400000000000
    if days = 1 then "1 day ago" else toString days ++ " days ago"

/-- extractTopTraits: iterate the traits (model order; the Go map order is
unspecified), keep those strictly above 0.6, stop once three are collected. -/
def topTraitsGo (l : List (String × ℚ)) (collected : Nat) : List String :=
  match l with
  | [] => []
  | (t, v) :: rest =>
    if 3/5 < v then
      let s := t ++ " (" ++ fmtDot1 v ++ ")"
      if 3 ≤ collected + 1 then [s] else s :: topTraitsGo rest (collected + 1)
    else topTraitsGo rest collected

/-- buildCharacterState: header, then the optional mood / time / relationship
/ traits / animation lines, then a blank line. -/
def buildCharacterState (pb : PromptBuilder) : String :=
  let ctx := pb.context
  "Current character state:\n"
  ++ (if 0 < ctx.currentMood then
        "- Mood: " ++ describeMood ctx.currentMood ++ " (" ++ fmtDot1 ctx.currentMood ++ "/100)\n"
      else "")
  ++ (if ctx.timeOfDay ≠ "" then "- Time of day: " ++ ctx.timeOfDay ++ "\n" else "")
  ++ (if ctx.relationshipLevel ≠ "" then "- Relationship level: " ++ ctx.relationshipLevel ++ "\n" else "")
  ++ (if 0 < ctx.personalityTraits.length then
        "- Key traits: " ++ String.intercalate ", " (topTraitsGo ctx.personalityTraits 0) ++ "\n"
      else "")
  ++ (if ctx.currentAnimation ≠ "" then "- Current animation: " ++ ctx.currentAnimation ++ "\n" else "")
  ++ "\n"

/-- One history entry line. -/
def historyLine (now : Int) (ex : ConversationExchange) : String :=
  "- " ++ formatTimeAgo now ex.timestamp ++ " (" ++ ex.trigger ++ "): User "
  ++ ex.trigger ++ " → You said: \"" ++ ex.response ++ "\"\n"

/-- buildConversationHistory: header, the up-to-5 most recent exchanges, a
blank line; empty when there is no history. -/
def buildConversationHistory (pb : PromptBuilder) (now : Int) : String :=
  if pb.history.length = 0 then ""
  else
    let start := if 5 < pb.history.length then pb.history.length - 5 else 0
    "Recent conversation:\n"
    ++ String.join ((pb.history.drop start).map (historyLine now))
    ++ "\n"

/-- buildCurrentSituation: trigger description, optional turn number and
previous response, a blank line. -/
def buildCurrentSituation (pb : PromptBuilder) : String :=
  let ctx := pb.context
  "Current situation:\n"
  ++ "- The user just performed: " ++ describeTrigger ctx.trigger ++ "\n"
  ++ (if 1 < ctx.conversationTurn then
        "- This is turn " ++ toString ctx.conversationTurn ++ " of the current conversation\n"
      else "")
  ++ (if ctx.lastResponse ≠ "" then
        "- Your last response was: \"" ++ ctx.lastResponse ++ "\"\n"
      else "")
  ++ "\n"

/-- buildResponseInstructions: the fixed trailing block. -/
def buildResponseInstructions : String :=
  "Response guidelines:\n- Keep responses short and natural (1-2 sentences maximum)\n- Match your personality and current mood\n- Respond appropriately to the user\x27s action\n- Use simple, conversational language\n- Include an emoji if it fits naturally\n- Stay in character as a desktop pet\n\nYour response:"

/-- Lines 59–88 of Build: the concatenation before truncation. -/
def buildAssembled (pb : PromptBuilder) (now : Int) : String :=
  (if pb.systemPrompt ≠ "" then pb.systemPrompt ++ "\n\n" else "")
  ++ (if pb.personality ≠ "" then
        "You are a desktop pet character with the following personality: " ++ pb.personality ++ "\n"
      else "You are a friendly desktop pet character.\n")
  ++ buildCharacterState pb
  ++ (if 0 < pb.history.length then buildConversationHistory pb now else "")
  ++ buildCurrentSituation pb
  ++ buildResponseInstructions

/-- strings.LastIndex for a single byte: byte index of the last occurrence,
-1 when absent. -/
def lastIndexOfByte (l : List Nat) (b : Nat) : Int :=
  (l.foldl (fun (acc : Int × Int) x => (acc.1 + 1, if x = b then acc.1 else acc.2)) (0, -1)).2

/-- Lines 90–97 of Build: when the byte length exceeds maxTokens*4, slice to
that byte budget, then, when the last newline of the slice lies strictly past
length−100, re-slice at it.  When no newline exists (LastIndex yields −1) and
−1 > length−100, the Go slice result[:−1] panics: none. -/
def truncGo (result : List Nat) (budget : Nat) : Option (List Nat) :=
  if budget < result.length then
    let r := result.take budget
    let lastNewline : Int := lastIndexOfByte r 10
    if (r.length : Int) - 100 < lastNewline then
      if lastNewline < 0 then none else some (r.take lastNewline.toNat)
    else some r
  else some result

/-- Build: assemble, then truncate on the UTF-8 bytes. -/
def PromptBuilder.build (pb : PromptBuilder) (now : Int) : Option (List Nat) :=
  truncGo (goBytes (buildAssembled pb now)) (pb.maxTokens * 4)

/-! Concrete instances used by the counterexample / failing-input theorems and
the witnesses. -/

/-- A context with every optional field empty or zero and a click trigger. -/
def ctxPlain : DialogContext :=
  { trigger := "click", interactionID := "", timestamp := 0, personalityTraits := []
    currentMood := 0, currentAnimation := "", relationshipLevel := "", timeOfDay := ""
    lastResponse := "", conversationTurn := 0, fallbackResponses := [], fallbackAnimation := "" }

/-- ctxPlain with two static fallback strings. -/
def ctxTwoFallbacks : DialogContext :=
  { ctxPlain with fallbackResponses := ["alpha", "beta"] }

/-- ctxPlain with one static fallback string. -/
def ctxOneFallback : DialogContext :=
  { ctxPlain with fallbackResponses := ["hi"] }

/-- A manager whose registry stores a nil handle under the default name. -/
def dmNilDefault : DialogManager :=
  { backends := [("b", none)], defaultBackend := "b", fallbackChain := [], debug := false }

/-- A manager whose fallback chain names a nil stored handle. -/
def dmNilChain : DialogManager :=
  { backends := [("b", none)], defaultBackend := "", fallbackChain := ["b"], debug := false }

/-- A manager with no backends at all. -/
def dmEmpty : DialogManager :=
  { backends := [], defaultBackend := "", fallbackChain := [], debug := false }

/-- Store with maxHistory 5 and a capacity of one conversation. -/
def cmCap1 : ContextManager := newContextManagerWithConfig 5 1 1 1

/-- Two adds: first for the session with the empty-string ID, then for "s". -/
def opsEmptyId : List (String × String × String × Int) :=
  [("", "click", "hi", 1), ("s", "click", "yo", 2)]

/-- Persona whose UTF-8 length puts the 200-byte budget cut inside a two-byte
character: one ASCII letter followed by 100 copies of a two-byte letter. -/
def personaSplit : String := "a" ++ String.mk (List.replicate 100 (Char.ofNat 233))

/-- Builder state holding personaSplit with a 50-token (200-byte) budget. -/
def pbSplit : PromptBuilder :=
  { systemPrompt := "", personality := personaSplit, history := [], context := ctxPlain
    template := "", maxTokens := 50 }

/-- Persona placing a sentence-ending period inside the final 20% of the
200-byte budget (byte 164), surrounded by letters with no whitespace. -/
def personaSentence : String :=
  String.mk (List.replicate 100 (Char.ofNat 97)) ++ "." ++ String.mk (List.replicate 200 (Char.ofNat 97))

/-- Builder state holding personaSentence with a 50-token (200-byte) budget. -/
def pbSentence : PromptBuilder :=
  { systemPrompt := "", personality := personaSentence, history := [], context := ctxPlain
    template := "", maxTokens := 50 }

/-- The default-backend acceptance condition: a default is set, its name is
registered with a non-nil handle, it can handle the context, and it returns
no error with confidence strictly above 0.5. -/
def DefaultAccepts (dm : DialogManager) (ctx : DialogContext) : Prop :=
  dm.defaultBackend ≠ ""
  ∧ ∃ b, backendsLookup dm.backends dm.defaultBackend = some (some b)
      ∧ b.canHandle ctx = true
      ∧ ∃ r, b.generateResponse ctx = some r ∧ 1/2 < r.confidence

/-- A fallback-chain entry is eligible when its name resolves to a non-nil
registered backend that can handle the context and returns no error — with no
condition on the confidence. -/
def ChainEligible (dm : DialogManager) (ctx : DialogContext) (name : String) : Prop :=
  ∃ b, backendsLookup dm.backends name = some (some b)
    ∧ b.canHandle ctx = true
    ∧ ∃ r, b.generateResponse ctx = some r

/-- The last mh entries of a list: what a window of size mh retains. -/
def windowSuffix (mh : Nat) (l : List ConversationExchange) : List ConversationExchange :=
  l.drop (l.length - mh)

/-- The exchange AddExchange records for a (trigger, response, now) call. -/
def mkEx (e : String × String × Int) : ConversationExchange :=
  { timestamp := e.2.2, trigger := e.1, response := e.2.1
    userFeedback := false, engagementScore := 0 }

/-- Every history stored in the map respects its window, and every window is
the manager-wide maxHistory. -/
def WindowInv (cm : ContextManager) : Prop :=
  ∀ l, cm.conversations = some l →
    ∀ p ∈ l, p.2.exchanges.length ≤ p.2.maxLength ∧ p.2.maxLength = cm.maxHistory

/-- Stored state after the C2 witness scenario (window 2, three adds). -/
def cmScenario : ContextManager := newContextManagerWithConfig 2 0 1 1

def esScenario : List (String × String × Int) := [("t1", "r1", 1), ("t2", "r2", 2), ("t3", "r3", 3)]

def stScenario : ContextManager :=
  (runAdds cmScenario (esScenario.map fun e => ("s", e))).getD cmScenario

/-! Concrete backends for the orchestrator witnesses. -/

/-- A response with confidence 0.9. -/
def responseHigh : DialogResponse :=
  { emptyDialogResponse with text := "primary answer", confidence := 9/10 }

/-- A response with confidence 0. -/
def responseLow : DialogResponse :=
  { emptyDialogResponse with text := "first chain answer", confidence := 0 }

/-- A backend that handles everything with confidence 0.9. -/
def backendHigh : DialogBackend :=
  { canHandle := fun _ => true, generateResponse := fun _ => some responseHigh }

/-- A backend that handles everything with confidence 0. -/
def backendLow : DialogBackend :=
  { canHandle := fun _ => true, generateResponse := fun _ => some responseLow }

/-- A backend whose CanHandle refuses every context. -/
def backendOff : DialogBackend :=
  { canHandle := fun _ => false, generateResponse := fun _ => some responseHigh }

/-- Default backend with confidence 0.9 plus one chain entry. -/
def dmPrimary : DialogManager :=
  { backends := [("main", some backendHigh), ("fb", some backendLow)]
    defaultBackend := "main", fallbackChain := ["fb"], debug := false }

/-- Refusing default, then a chain whose first entry refuses, second succeeds
with confidence 0, third never runs. -/
def dmChain : DialogManager :=
  { backends := [("main", some backendOff), ("f0", some backendOff),
                 ("f1", some backendLow), ("f2", some backendHigh)]
    defaultBackend := "main", fallbackChain := ["f0", "f1", "f2"], debug := false }

/-! C3 — the LRU capacity invariant.  AddExchange with a new session at
capacity calls evictOldestConversation, whose final guard skips the delete
when the computed oldest ID is the empty string, so a store whose
least-recently-updated session has ID "" grows past maxConversations. -/

/-- C3 (code_bug): with maxConversations = 1, adding for session "" and then
for session "s" leaves the store tracking two sessions — both with history —
although the configured maximum is one, because the eviction pass refuses to
delete the oldest session when its ID is the empty string. -/
theorem evictOldest_empty_id_overflow :
    cmCap1.maxConversations = 1
    ∧ (runAdds cmCap1 opsEmptyId).map getActiveConversations = some 2
    ∧ (runAdds cmCap1 opsEmptyId).map
        (fun st => ((getHistory st "" 10).length, (getHistory st "s" 10).length)) = some (1, 1) := by
  refine ⟨rfl, rfl, rfl⟩

/-! C6 / C7 — the Build truncation.  Lines 90–97 of prompt_builder.go slice
the assembled string at maxTokens*4 BYTES and only back up to the last newline
when one occurs in the final 100 bytes of the slice; there is no sentence or
whitespace boundary search, no UTF-8 awareness and no truncation marker. -/

/-- C6 (code_bug): with a 200-byte budget and a persona of two-byte letters,
Build returns exactly 200 bytes whose last byte is the dangling lead byte 195
of a split two-byte character, so the output is not valid UTF-8 text. -/
theorem build_truncation_splits_multibyte :
    pbSplit.maxTokens * 4 = 200
    ∧ (pbSplit.build 0).map List.length = some 200
    ∧ (pbSplit.build 0).map (fun r => r.getLast?) = some (some 195)
    ∧ (pbSplit.build 0).map validUtf8 = some false := by
  refine ⟨rfl, rfl, rfl, rfl⟩

/-- C7 (code_bug): the assembled prompt (751 bytes) exceeds the 200-byte
budget and contains a sentence-ending period at byte 164 — inside the final
20% of the budget (bytes 160..199) — yet Build returns the raw 200-byte
prefix of the assembly: it ends with the letter byte 97, not at the period,
truncates at neither a sentence nor a whitespace boundary, and appends no
truncation marker. -/
theorem build_truncation_ignores_sentence_boundary :
    (goBytes (buildAssembled pbSentence 0)).length = 751
    ∧ pbSentence.maxTokens * 4 = 200
    ∧ pbSentence.build 0 = some ((goBytes (buildAssembled pbSentence 0)).take 200)
    ∧ (pbSentence.build 0).map (fun r => lastIndexOfByte r 46) = some 164
    ∧ (pbSentence.build 0).map (fun r => r.getLast?) = some (some 97) := by
  refine ⟨rfl, rfl, rfl, rfl, rfl⟩

/-! C8 — nil handles in the registry.  tryDefaultBackend, tryFallbackBackend
and UpdateBackendMemory check only map presence (the exists flag); a stored
nil handle reaches a CanHandle method call and panics. -/

/-- C8 (code_bug): a nil handle registered under the default name makes
GenerateDialog panic (none), a nil handle named by the fallback chain makes
GenerateDialog panic, and UpdateBackendMemory panics scanning the same
registry — no stage verifies the stored handle is non-nil before the call. -/
theorem generateDialog_nil_backend_panics :
    generateDialog dmNilDefault ctxOneFallback 0 = none
    ∧ generateDialog dmNilChain ctxOneFallback 0 = none
    ∧ updateBackendMemory dmNilDefault ctxOneFallback = none := by
  refine ⟨rfl, rfl, rfl⟩

/-! C9 — the static fallback.  createFallbackResponse picks the response with
index int(time.Now().UnixNano()) % len(FallbackResponses): the selection
depends on the wall clock, not only on the context and manager state. -/

/-- C9 (counterexample): two runs of the final fallback step on the same
context and the same manager state, at clock readings one nanosecond apart,
return different response texts — the selection is not deterministic in the
context. -/
theorem createFallbackResponse_time_dependent :
    (createFallbackResponse ctxTwoFallbacks 0).text = "alpha"
    ∧ (createFallbackResponse ctxTwoFallbacks 1).text = "beta"
    ∧ (createFallbackResponse ctxTwoFallbacks 0).text ≠ (createFallbackResponse ctxTwoFallbacks 1).text := by
  refine ⟨rfl, rfl, by decide⟩

/-- C9 (amended): for a context with a non-empty fallback list the static
fallback step selects the entry at index nowNano % length — a time-rotating
index, deterministic only for a fixed clock reading (or a one-entry list) —
with confidence fixed at 0.1, classification tag "fallback", and the context
fallback animation (default "talking"). -/
theorem createFallbackResponse_spec (ctx : DialogContext) (nowNano : Nat)
    (h : ctx.fallbackResponses ≠ []) :
    (createFallbackResponse ctx nowNano).text
        = ctx.fallbackResponses.getD (nowNano % ctx.fallbackResponses.length) ""
    ∧ (createFallbackResponse ctx nowNano).confidence = 1/10
    ∧ (createFallbackResponse ctx nowNano).responseType = "fallback"
    ∧ (createFallbackResponse ctx nowNano).animation
        = (if ctx.fallbackAnimation ≠ "" then ctx.fallbackAnimation else "talking")
    ∧ ∀ n2 : Nat, nowNano % ctx.fallbackResponses.length = n2 % ctx.fallbackResponses.length →
        createFallbackResponse ctx nowNano = createFallbackResponse ctx n2 := by
  have hlen : 0 < ctx.fallbackResponses.length := List.length_pos.mpr h
  refine ⟨?_, rfl, rfl, rfl, ?_⟩
  · simp only [createFallbackResponse, dif_pos hlen]
    exact (List.getD_eq_getElem _ _ (Nat.mod_lt nowNano hlen)).symm
  · intro n2 hmod
    simp only [createFallbackResponse, dif_pos hlen, hmod]

/-- Witness for the amended C9 theorem at a concrete context and clock. -/
theorem createFallbackResponse_spec_witness :
    ctxTwoFallbacks.fallbackResponses ≠ []
    ∧ (createFallbackResponse ctxTwoFallbacks 7).text
        = ctxTwoFallbacks.fallbackResponses.getD (7 % ctxTwoFallbacks.fallbackResponses.length) "" :=
  ⟨by decide, (createFallbackResponse_spec ctxTwoFallbacks 7 (by decide)).1⟩

/-! Helper lemmas about the orchestrator stages. -/

theorem backendsLookup_mem {l : List (String × Option DialogBackend)} {k : String} {v : Option DialogBackend} (h : backendsLookup l k = some v) : (k, v) ∈ l := by
  induction l with
  | nil => simp [backendsLookup] at h
  | cons p rest ih =>
    obtain ⟨a, ob⟩ := p
    by_cases hk : a = k
    · subst hk
      simp only [backendsLookup, if_pos rfl] at h
      obtain rfl : ob = v := Option.some.inj h
      exact List.mem_cons_self _ _
    · simp only [backendsLookup, if_neg hk] at h
      exact List.mem_cons_of_mem _ (ih h)

theorem tryDefaultBackend_isSome {dm : DialogManager} (ctx : DialogContext) (hnf : NilFreeRegistry dm) : (tryDefaultBackend dm ctx).isSome = true := by
  unfold tryDefaultBackend
  split
  · rfl
  split
  · rfl
  · rename_i heq
    have hmem := hnf _ (backendsLookup_mem heq)
    simp at hmem
  · split
    · rfl
    split
    · rfl
    split
    · rfl
    · rfl

theorem tryFallbackBackend_isSome {dm : DialogManager} (i : Nat) (name : String) (ctx : DialogContext) (hnf : NilFreeRegistry dm) : (tryFallbackBackend dm i name ctx).isSome = true := by
  unfold tryFallbackBackend
  split
  · rfl
  · rename_i heq
    have hmem := hnf _ (backendsLookup_mem heq)
    simp at hmem
  · split
    · rfl
    split
    · rfl
    · rfl

theorem tryFallbackChainAux_isSome {dm : DialogManager} (ctx : DialogContext) (hnf : NilFreeRegistry dm) : ∀ (names : List String) (i : Nat), (tryFallbackChainAux dm ctx i names).isSome = true := by
  intro names
  induction names with
  | nil => intro i; rfl
  | cons n rest ih =>
    intro i
    have h1 := tryFallbackBackend_isSome i n ctx hnf
    unfold tryFallbackChainAux
    rcases h1eq : tryFallbackBackend dm i n ctx with _ | ⟨⟨r, succ⟩, evs⟩
    · rw [h1eq] at h1; simp at h1
    · cases succ
      · have h2 := ih (i + 1)
        rcases h2eq : tryFallbackChainAux dm ctx (i + 1) rest with _ | ⟨res, evs2⟩
        · rw [h2eq] at h2; simp at h2
        · rfl
      · rfl

/-- C1: for every registry without nil stored handles and every context with
at least one static fallback string, GenerateDialog returns a response and a
nil error — no backend needs to be registered, set as default, or succeed. -/
theorem generateDialog_total_of_fallback (dm : DialogManager) (ctx : DialogContext) (nowNano : Nat) (hnf : NilFreeRegistry dm) (_hfb : ctx.fallbackResponses ≠ []) : ∃ o, generateDialog dm ctx nowNano = some o ∧ o.err = none := by
  unfold generateDialog
  have h1 := tryDefaultBackend_isSome ctx hnf
  rcases h1eq : tryDefaultBackend dm ctx with _ | ⟨⟨r, succ⟩, evs⟩
  · rw [h1eq] at h1; simp at h1
  · cases succ
    · have h2 := tryFallbackChainAux_isSome ctx hnf dm.fallbackChain 0
      rcases h2eq : tryFallbackChainAux dm ctx 0 dm.fallbackChain with _ | ⟨res, evs2⟩
      · rw [h2eq] at h2; simp at h2
      · rcases res with _ | ⟨i, r2⟩
        · exact ⟨_, rfl, rfl⟩
        · exact ⟨_, rfl, rfl⟩
    · exact ⟨_, rfl, rfl⟩

/-- Witness for C1: the empty registry with no default and no chain still
answers (from the static fallback) with a nil error. -/
theorem generateDialog_total_of_fallback_witness :
    NilFreeRegistry dmEmpty ∧ ctxOneFallback.fallbackResponses ≠ []
    ∧ ∃ o, generateDialog dmEmpty ctxOneFallback 5 = some o ∧ o.err = none :=
  ⟨by decide, by decide, generateDialog_total_of_fallback dmEmpty ctxOneFallback 5 (by decide) (by decide)⟩

/-! C2 — the per-session rolling window. -/

theorem mapLookup_mem {l : List (String × ConversationHistory)} {k : String} {h : ConversationHistory} (hl : mapLookup l k = some h) : (k, h) ∈ l := by
  induction l with
  | nil => simp [mapLookup] at hl
  | cons p rest ih =>
    obtain ⟨a, v⟩ := p
    by_cases hk : a = k
    · subst hk
      simp only [mapLookup, if_pos rfl] at hl
      obtain rfl : v = h := Option.some.inj hl
      exact List.mem_cons_self _ _
    · simp only [mapLookup, if_neg hk] at hl
      exact List.mem_cons_of_mem _ (ih hl)

theorem mapInsert_mem {l : List (String × ConversationHistory)} {k : String} {v : ConversationHistory} {p : String × ConversationHistory} (hp : p ∈ mapInsert l k v) : p = (k, v) ∨ p ∈ l := by
  induction l with
  | nil =>
    simp [mapInsert] at hp
    exact Or.inl hp
  | cons q rest ih =>
    by_cases hk : q.1 = k
    · simp only [mapInsert, if_pos hk] at hp
      rcases List.mem_cons.mp hp with hp | hp
      · exact Or.inl hp
      · exact Or.inr (List.mem_cons_of_mem _ hp)
    · simp only [mapInsert, if_neg hk] at hp
      rcases List.mem_cons.mp hp with hp | hp
      · subst hp
        exact Or.inr (List.mem_cons_self _ _)
      · rcases ih hp with hp2 | hp2
        · exact Or.inl hp2
        · exact Or.inr (List.mem_cons_of_mem _ hp2)

theorem evictOldest_subset {l : List (String × ConversationHistory)} {p : String × ConversationHistory} (hp : p ∈ evictOldestConversation l) : p ∈ l := by
  unfold evictOldestConversation at hp
  split at hp
  · exact hp
  · split at hp
    · exact hp
    · split at hp
      · exact List.mem_of_mem_filter hp
      · exact hp

theorem addExchange_eq_some {cm : ContextManager} {convs : List (String × ConversationHistory)} (interactionID trigger response : String) (now : Int) (hcv : cm.conversations = some convs) : addExchange cm interactionID trigger response now = some (addExchangeAux cm interactionID trigger response now convs) := by
  unfold addExchange
  rw [hcv]

theorem addExchangeAux_spec_new (convs : List (String × ConversationHistory)) (cm : ContextManager) (interactionID trigger response : String) (now : Int) (hlk : mapLookup convs interactionID = none) :
    addExchangeAux cm interactionID trigger response now convs
      = { cm with conversations := some (mapInsert
            (if 0 < cm.maxConversations ∧ cm.maxConversations ≤ (convs.length : Int) then
              evictOldestConversation convs
            else convs)
            interactionID
            { interactionID := interactionID
              exchanges :=
                (if cm.maxHistory < 1 then
                  [mkEx (trigger, response, now)].drop 1
                else
                  [mkEx (trigger, response, now)])
              lastUpdated := now
              maxLength := cm.maxHistory }) } := by
  unfold addExchangeAux
  rw [hlk]
  rfl

theorem addExchangeAux_spec_existing {convs : List (String × ConversationHistory)} {hist : ConversationHistory} (cm : ContextManager) (interactionID trigger response : String) (now : Int) (hlk : mapLookup convs interactionID = some hist) :
    addExchangeAux cm interactionID trigger response now convs
      = { cm with conversations := some (mapInsert convs interactionID
            { interactionID := hist.interactionID
              exchanges :=
                (if hist.maxLength < (hist.exchanges ++ [mkEx (trigger, response, now)]).length then
                  (hist.exchanges ++ [mkEx (trigger, response, now)]).drop 1
                else
                  hist.exchanges ++ [mkEx (trigger, response, now)])
              lastUpdated := now
              maxLength := hist.maxLength }) } := by
  unfold addExchangeAux
  rw [hlk]
  rfl

theorem addExchange_WindowInv {cm cm2 : ContextManager} {interactionID trigger response : String} {now : Int} (hinv : WindowInv cm) (hadd : addExchange cm interactionID trigger response now = some cm2) : WindowInv cm2 ∧ cm2.maxHistory = cm.maxHistory := by
  rcases hcv : cm.conversations with _ | convs
  · unfold addExchange at hadd
    rw [hcv] at hadd
    simp at hadd
  · rw [addExchange_eq_some interactionID trigger response now hcv] at hadd
    obtain rfl : _ = cm2 := Option.some.inj hadd
    rcases hlk : mapLookup convs interactionID with _ | hist
    · rw [addExchangeAux_spec_new convs cm interactionID trigger response now hlk]
      refine ⟨?_, rfl⟩
      intro l hl p hp
      obtain rfl : _ = l := Option.some.inj hl
      rcases mapInsert_mem hp with hp | hp
      · subst hp
        refine ⟨?_, rfl⟩
        split
        · simp
        · rename_i hge
          simp only [List.length_cons, List.length_nil]
          omega
      · have hp2 : p ∈ convs := by
          by_cases hcap : 0 < cm.maxConversations ∧ cm.maxConversations ≤ (convs.length : Int)
          · rw [if_pos hcap] at hp
            exact evictOldest_subset hp
          · rw [if_neg hcap] at hp
            exact hp
        exact hinv convs hcv p hp2
    · rw [addExchangeAux_spec_existing cm interactionID trigger response now hlk]
      refine ⟨?_, rfl⟩
      intro l hl p hp
      obtain rfl : _ = l := Option.some.inj hl
      rcases mapInsert_mem hp with hp | hp
      · subst hp
        obtain ⟨hlen0, hml0⟩ := hinv convs hcv _ (mapLookup_mem hlk)
        have hlen : hist.exchanges.length ≤ hist.maxLength := hlen0
        have hml : hist.maxLength = cm.maxHistory := hml0
        refine ⟨?_, hml⟩
        split
        · rename_i hlt
          simp only [List.length_drop, List.length_append, List.length_cons, List.length_nil]
          omega
        · rename_i hge
          simp only [List.length_append, List.length_cons, List.length_nil] at hge ⊢
          omega
      · exact hinv convs hcv p hp

theorem runAdds_WindowInv {cm st : ContextManager} {ops : List (String × String × String × Int)} (hinv : WindowInv cm) (hrun : runAdds cm ops = some st) : WindowInv st ∧ st.maxHistory = cm.maxHistory := by
  induction ops generalizing cm with
  | nil =>
    obtain rfl : cm = st := Option.some.inj hrun
    exact ⟨hinv, rfl⟩
  | cons op rest ih =>
    unfold runAdds at hrun
    rcases hadd : addExchange cm op.1 op.2.1 op.2.2.1 op.2.2.2 with _ | cm2
    · rw [hadd] at hrun
      simp at hrun
    · rw [hadd] at hrun
      obtain ⟨hinv2, hmh2⟩ := addExchange_WindowInv hinv hadd
      obtain ⟨hinv3, hmh3⟩ := ih hinv2 hrun
      exact ⟨hinv3, hmh3.trans hmh2⟩

theorem roll_window (mh : Nat) (l : List ConversationExchange) (e : ConversationExchange) :
    (if mh < (windowSuffix mh l ++ [e]).length then (windowSuffix mh l ++ [e]).drop 1
     else windowSuffix mh l ++ [e]) = windowSuffix mh (l ++ [e]) := by
  unfold windowSuffix
  rcases Nat.le_total l.length mh with hle | hge
  · have h0 : l.length - mh = 0 := by omega
    rw [h0, List.drop_zero]
    by_cases hc : mh < (l ++ [e]).length
    · rw [if_pos hc]
      have h1 : (l ++ [e]).length - mh = 1 := by
        simp only [List.length_append, List.length_cons, List.length_nil] at hc ⊢
        omega
      rw [h1]
    · rw [if_neg hc]
      have h1 : (l ++ [e]).length - mh = 0 := by
        simp only [List.length_append, List.length_cons, List.length_nil] at hc ⊢
        omega
      rw [h1, List.drop_zero]
  · have hlenw : (l.drop (l.length - mh)).length = mh := by
      simp only [List.length_drop]
      omega
    have hcond : mh < (l.drop (l.length - mh) ++ [e]).length := by
      simp only [List.length_append, hlenw, List.length_cons, List.length_nil]
      omega
    rw [if_pos hcond]
    rw [← List.drop_append_of_le_length (by omega : l.length - mh ≤ l.length)]
    rw [List.drop_drop]
    congr 1
    simp only [List.length_append, List.length_cons, List.length_nil]
    omega

theorem windowSuffix_single (mh : Nat) (x : ConversationExchange) :
    (if mh < 1 then ([x] : List ConversationExchange).drop 1 else [x]) = windowSuffix mh [x] := by
  unfold windowSuffix
  by_cases h : mh < 1
  · rw [if_pos h]
    have h1 : ([x] : List ConversationExchange).length - mh = 1 := by simp; omega
    rw [h1]
  · rw [if_neg h]
    have h1 : ([x] : List ConversationExchange).length - mh = 0 := by simp; omega
    rw [h1, List.drop_zero]

theorem runAdds_single_aux (mh : Nat) (interactionID : String) :
    ∀ (es : List (String × String × Int)) (cm : ContextManager) (l : List ConversationExchange) (lu : Int),
      cm.conversations = some [(interactionID,
        { interactionID := interactionID, exchanges := windowSuffix mh l, lastUpdated := lu, maxLength := mh })] →
      cm.maxHistory = mh →
      ∃ (st : ContextManager) (lu2 : Int),
        runAdds cm (es.map (fun e => (interactionID, e))) = some st
        ∧ st.conversations = some [(interactionID,
            { interactionID := interactionID, exchanges := windowSuffix mh (l ++ es.map mkEx),
              lastUpdated := lu2, maxLength := mh })]
        ∧ st.maxHistory = mh := by
  intro es
  induction es with
  | nil =>
    intro cm l lu hcv hmh
    refine ⟨cm, lu, rfl, ?_, hmh⟩
    rw [hcv]
    simp
  | cons e rest ih =>
    intro cm l lu hcv hmh
    have hlk : mapLookup [(interactionID,
        { interactionID := interactionID, exchanges := windowSuffix mh l, lastUpdated := lu, maxLength := mh })]
        interactionID = some { interactionID := interactionID, exchanges := windowSuffix mh l, lastUpdated := lu, maxLength := mh } := by
      simp [mapLookup]
    have hadd : addExchange cm interactionID e.1 e.2.1 e.2.2
        = some { cm with conversations := some [(interactionID,
            { interactionID := interactionID, exchanges := windowSuffix mh (l ++ [mkEx e]),
              lastUpdated := e.2.2, maxLength := mh })] } := by
      rw [addExchange_eq_some _ _ _ _ hcv,
        addExchangeAux_spec_existing cm interactionID e.1 e.2.1 e.2.2 hlk]
      simp only [mapInsert, if_pos rfl]
      rw [roll_window mh l (mkEx (e.1, e.2.1, e.2.2))]
      simp
    obtain ⟨st, lu2, hrun, hc, hm⟩ :=
      ih { cm with conversations := some [(interactionID,
            { interactionID := interactionID, exchanges := windowSuffix mh (l ++ [mkEx e]),
              lastUpdated := e.2.2, maxLength := mh })] }
        (l ++ [mkEx e]) e.2.2 rfl hmh
    refine ⟨st, lu2, ?_, ?_, hm⟩
    · simp only [List.map_cons]
      unfold runAdds
      dsimp only
      rw [hadd]
      exact hrun
    · rw [hc]
      simp [List.append_assoc]

theorem runAdds_single_session (mhI mcI ciI rpI : Int) (interactionID : String) (es : List (String × String × Int)) (st : ContextManager)
    (hrun : runAdds (newContextManagerWithConfig mhI mcI ciI rpI) (es.map fun e => (interactionID, e)) = some st) :
    storedExchanges st interactionID = windowSuffix st.maxHistory (es.map mkEx)
    ∧ st.maxHistory = (newContextManagerWithConfig mhI mcI ciI rpI).maxHistory := by
  cases es with
  | nil =>
    obtain rfl : _ = st := Option.some.inj hrun
    refine ⟨?_, rfl⟩
    simp [storedExchanges, newContextManagerWithConfig, mapLookup, windowSuffix]
  | cons e rest =>
    have hfirst : addExchange (newContextManagerWithConfig mhI mcI ciI rpI) interactionID e.1 e.2.1 e.2.2
        = some { (newContextManagerWithConfig mhI mcI ciI rpI) with conversations := some [(interactionID,
            { interactionID := interactionID,
              exchanges := windowSuffix (newContextManagerWithConfig mhI mcI ciI rpI).maxHistory [mkEx e],
              lastUpdated := e.2.2,
              maxLength := (newContextManagerWithConfig mhI mcI ciI rpI).maxHistory })] } := by
      rw [addExchange_eq_some _ _ _ _ rfl,
        addExchangeAux_spec_new ([] : List (String × ConversationHistory))
          (newContextManagerWithConfig mhI mcI ciI rpI) interactionID e.1 e.2.1 e.2.2 rfl]
      have hevict : (if 0 < (newContextManagerWithConfig mhI mcI ciI rpI).maxConversations
            ∧ (newContextManagerWithConfig mhI mcI ciI rpI).maxConversations ≤ ((List.length ([] : List (String × ConversationHistory))) : Int)
          then evictOldestConversation [] else ([] : List (String × ConversationHistory)))
          = ([] : List (String × ConversationHistory)) := by
        split <;> rfl
      rw [hevict]
      simp only [mapInsert]
      rw [windowSuffix_single]
    simp only [List.map_cons] at hrun
    unfold runAdds at hrun
    dsimp only at hrun
    rw [hfirst] at hrun
    obtain ⟨st2, lu2, hr2, hc2, hm2⟩ :=
      runAdds_single_aux (newContextManagerWithConfig mhI mcI ciI rpI).maxHistory interactionID rest
        { (newContextManagerWithConfig mhI mcI ciI rpI) with conversations := some [(interactionID,
            { interactionID := interactionID,
              exchanges := windowSuffix (newContextManagerWithConfig mhI mcI ciI rpI).maxHistory [mkEx e],
              lastUpdated := e.2.2,
              maxLength := (newContextManagerWithConfig mhI mcI ciI rpI).maxHistory })] }
        [mkEx e] e.2.2 rfl rfl
    have heq : some st2 = some st := hr2.symm.trans hrun
    obtain rfl : st2 = st := Option.some.inj heq
    refine ⟨?_, hm2⟩
    unfold storedExchanges
    rw [hc2]
    simp only [mapLookup, if_pos rfl]
    rw [hm2]
    simp

/-- C2: from any configuration, after any sequence of AddExchange calls the
stored exchange list of every session has at most maxHistory entries and
GetHistory returns at most maxHistory exchanges for any limit; and for any
single-session sequence the stored list is exactly the suffix of the last
maxHistory recorded exchanges — each overflowing append drops exactly the
single oldest entry — so after maxHistory+1 adds the stored list is the add
list with its first exchange dropped. -/
theorem addExchange_window_bound :
    (∀ (mhI mcI ciI rpI : Int) (ops : List (String × String × String × Int)) (st : ContextManager),
        runAdds (newContextManagerWithConfig mhI mcI ciI rpI) ops = some st →
        ∀ (interactionID : String) (lim : Int),
          (storedExchanges st interactionID).length ≤ st.maxHistory
          ∧ (getHistory st interactionID lim).length ≤ st.maxHistory)
    ∧ (∀ (mhI mcI ciI rpI : Int) (interactionID : String) (es : List (String × String × Int)) (st : ContextManager),
        runAdds (newContextManagerWithConfig mhI mcI ciI rpI) (es.map fun e => (interactionID, e)) = some st →
        storedExchanges st interactionID = windowSuffix st.maxHistory (es.map mkEx)
        ∧ (es.length = st.maxHistory + 1 → storedExchanges st interactionID = (es.map mkEx).drop 1)) := by
  constructor
  · intro mhI mcI ciI rpI ops st hrun interactionID lim
    have hinv0 : WindowInv (newContextManagerWithConfig mhI mcI ciI rpI) := by
      intro l hl p hp
      obtain rfl : _ = l := Option.some.inj hl
      simp at hp
    obtain ⟨hinv, hmh⟩ := runAdds_WindowInv hinv0 hrun
    constructor
    · unfold storedExchanges
      rcases hc : st.conversations with _ | convs
      · simp
      · dsimp only
        rcases hl : mapLookup convs interactionID with _ | h
        · simp
        · obtain ⟨h1, h2⟩ := hinv convs hc _ (mapLookup_mem hl)
          have h1a : h.exchanges.length ≤ h.maxLength := h1
          have h2a : h.maxLength = st.maxHistory := h2
          dsimp only
          omega
    · unfold getHistory
      rcases hc : st.conversations with _ | convs
      · simp
      · dsimp only
        rcases hl : mapLookup convs interactionID with _ | h
        · simp
        · obtain ⟨h1, h2⟩ := hinv convs hc _ (mapLookup_mem hl)
          have h1a : h.exchanges.length ≤ h.maxLength := h1
          have h2a : h.maxLength = st.maxHistory := h2
          dsimp only
          split
          · simp only [List.length_drop]
            omega
          · omega
  · intro mhI mcI ciI rpI interactionID es st hrun
    have hmain := runAdds_single_session mhI mcI ciI rpI interactionID es st hrun
    refine ⟨hmain.1, ?_⟩
    intro hlen
    rw [hmain.1]
    unfold windowSuffix
    have h1 : (es.map mkEx).length = es.length := by simp
    congr 1
    omega

/-- Witness for C2 at window 2 with three adds to one session. -/
theorem addExchange_window_bound_witness :
    runAdds cmScenario (esScenario.map fun e => ("s", e)) = some stScenario
    ∧ (storedExchanges stScenario "s").length ≤ stScenario.maxHistory
    ∧ storedExchanges stScenario "s" = windowSuffix stScenario.maxHistory (esScenario.map mkEx)
    ∧ (esScenario.length = stScenario.maxHistory + 1 →
        storedExchanges stScenario "s" = (esScenario.map mkEx).drop 1) := by
  have h : runAdds cmScenario (esScenario.map fun e => ("s", e)) = some stScenario := by rfl
  exact ⟨h, (addExchange_window_bound.1 2 0 1 1 _ stScenario h "s" 20).1,
    (addExchange_window_bound.2 2 0 1 1 "s" esScenario stScenario h).1,
    (addExchange_window_bound.2 2 0 1 1 "s" esScenario stScenario h).2⟩

/-! C4 / C5 — the acceptance gates of the two stages. -/

theorem tryDefaultBackend_success_elim {dm : DialogManager} {ctx : DialogContext} {r : DialogResponse} {evs : List CallEv} (h : tryDefaultBackend dm ctx = some ((r, true), evs)) :
    dm.defaultBackend ≠ ""
    ∧ ∃ b, backendsLookup dm.backends dm.defaultBackend = some (some b)
        ∧ b.canHandle ctx = true ∧ b.generateResponse ctx = some r ∧ 1/2 < r.confidence
        ∧ evs = [{ stage := Stage.primary, backend := dm.defaultBackend, method := "CanHandle" },
                 { stage := Stage.primary, backend := dm.defaultBackend, method := "GenerateResponse" }] := by
  unfold tryDefaultBackend at h
  split at h
  · simp at h
  split at h
  · simp at h
  · simp at h
  · rename_i b heq
    split at h
    · simp at h
    · rename_i hch
      split at h
      · simp at h
      · rename_i r0 hgr
        split at h
        · simp at h
        · rename_i hconf
          simp only [Option.some.injEq, Prod.mk.injEq] at h
          obtain ⟨⟨hr, _⟩, hevs⟩ := h
          subst hr
          refine ⟨by assumption, b, heq, ?_, hgr, not_le.mp hconf, hevs.symm⟩
          revert hch
          cases b.canHandle ctx <;> simp

theorem tryDefaultBackend_success_intro {dm : DialogManager} {ctx : DialogContext} {b : DialogBackend} {r : DialogResponse} (hd : dm.defaultBackend ≠ "") (hbl : backendsLookup dm.backends dm.defaultBackend = some (some b)) (hch : b.canHandle ctx = true) (hgr : b.generateResponse ctx = some r) (hconf : 1/2 < r.confidence) :
    tryDefaultBackend dm ctx
      = some ((r, true),
          [{ stage := Stage.primary, backend := dm.defaultBackend, method := "CanHandle" },
           { stage := Stage.primary, backend := dm.defaultBackend, method := "GenerateResponse" }]) := by
  unfold tryDefaultBackend
  rw [if_neg hd, hbl]
  simp only [hch, hgr]
  rw [if_neg (by simp : ¬(true = false))]
  rw [if_neg (not_le.mpr hconf)]

/-- C4: GenerateDialog answers from the first stage — the default backend's
response, with no fallback-chain backend invoked — exactly when the default
backend is set, registered non-nil, can handle the context, and returns no
error with confidence strictly above 0.5; and whenever the outcome is from
that stage, its response is the default backend's response and the only calls
made are the default backend's CanHandle and GenerateResponse. -/
theorem generateDialog_primary_iff (dm : DialogManager) (ctx : DialogContext) (nowNano : Nat) :
    ((∃ o, generateDialog dm ctx nowNano = some o ∧ o.stage = Stage.primary) ↔ DefaultAccepts dm ctx)
    ∧ (∀ o, generateDialog dm ctx nowNano = some o → o.stage = Stage.primary →
        ∃ b r, backendsLookup dm.backends dm.defaultBackend = some (some b)
          ∧ b.generateResponse ctx = some r ∧ 1/2 < r.confidence ∧ o.response = r
          ∧ o.calls = [{ stage := Stage.primary, backend := dm.defaultBackend, method := "CanHandle" },
                       { stage := Stage.primary, backend := dm.defaultBackend, method := "GenerateResponse" }]) := by
  unfold generateDialog
  rcases h1eq : tryDefaultBackend dm ctx with _ | ⟨⟨r, succ⟩, evs⟩
  · constructor
    · constructor
      · rintro ⟨o, ho, _⟩
        simp at ho
      · rintro ⟨hd, b, hbl, hch, r, hgr, hconf⟩
        rw [tryDefaultBackend_success_intro hd hbl hch hgr hconf] at h1eq
        simp at h1eq
    · intro o ho
      simp at ho
  · cases succ
    · rcases h2eq : tryFallbackChainAux dm ctx 0 dm.fallbackChain with _ | ⟨res, evs2⟩
      · constructor
        · constructor
          · rintro ⟨o, ho, _⟩
            simp at ho
          · rintro ⟨hd, b, hbl, hch, r2, hgr, hconf⟩
            rw [tryDefaultBackend_success_intro hd hbl hch hgr hconf] at h1eq
            simp at h1eq
        · intro o ho
          simp at ho
      · rcases res with _ | ⟨i, r2⟩
        · constructor
          · constructor
            · rintro ⟨o, ho, hstage⟩
              obtain rfl : _ = o := Option.some.inj ho
              simp at hstage
            · rintro ⟨hd, b, hbl, hch, r2, hgr, hconf⟩
              rw [tryDefaultBackend_success_intro hd hbl hch hgr hconf] at h1eq
              simp at h1eq
          · intro o ho hstage
            obtain rfl : _ = o := Option.some.inj ho
            simp at hstage
        · constructor
          · constructor
            · rintro ⟨o, ho, hstage⟩
              obtain rfl : _ = o := Option.some.inj ho
              simp at hstage
            · rintro ⟨hd, b, hbl, hch, r3, hgr, hconf⟩
              rw [tryDefaultBackend_success_intro hd hbl hch hgr hconf] at h1eq
              simp at h1eq
          · intro o ho hstage
            obtain rfl : _ = o := Option.some.inj ho
            simp at hstage
    · obtain ⟨hd, b, hbl, hch, hgr, hconf, hevs⟩ := tryDefaultBackend_success_elim h1eq
      constructor
      · constructor
        · intro _
          exact ⟨hd, b, hbl, hch, r, hgr, hconf⟩
        · intro _
          exact ⟨_, rfl, rfl⟩
      · intro o ho _
        obtain rfl : _ = o := Option.some.inj ho
        exact ⟨b, r, hbl, hgr, hconf, rfl, hevs⟩

theorem tryDefaultBackend_events {dm : DialogManager} {ctx : DialogContext} {p : DialogResponse × Bool} {evs : List CallEv} (h : tryDefaultBackend dm ctx = some (p, evs)) : ∀ ev ∈ evs, ev.stage = Stage.primary := by
  unfold tryDefaultBackend at h
  split at h
  · simp only [Option.some.injEq, Prod.mk.injEq] at h
    obtain ⟨-, hevs⟩ := h
    subst hevs
    simp
  split at h
  · simp only [Option.some.injEq, Prod.mk.injEq] at h
    obtain ⟨-, hevs⟩ := h
    subst hevs
    simp
  · simp at h
  · split at h
    · simp only [Option.some.injEq, Prod.mk.injEq] at h
      obtain ⟨-, hevs⟩ := h
      subst hevs
      intro ev hev
      simp at hev
      subst hev
      rfl
    · split at h
      · simp only [Option.some.injEq, Prod.mk.injEq] at h
        obtain ⟨-, hevs⟩ := h
        subst hevs
        intro ev hev
        simp only [List.mem_cons, List.not_mem_nil, or_false] at hev
        rcases hev with rfl | rfl <;> rfl
      · split at h
        all_goals
          simp only [Option.some.injEq, Prod.mk.injEq] at h
          obtain ⟨-, hevs⟩ := h
          subst hevs
          intro ev hev
          simp only [List.mem_cons, List.not_mem_nil, or_false] at hev
          rcases hev with rfl | rfl <;> rfl

theorem tryFallbackBackend_success_intro {dm : DialogManager} {ctx : DialogContext} {name : String} {b : DialogBackend} {r : DialogResponse} (i : Nat) (hbl : backendsLookup dm.backends name = some (some b)) (hch : b.canHandle ctx = true) (hgr : b.generateResponse ctx = some r) :
    tryFallbackBackend dm i name ctx
      = some ((r, true),
          [{ stage := Stage.chain i, backend := name, method := "CanHandle" },
           { stage := Stage.chain i, backend := name, method := "GenerateResponse" }]) := by
  unfold tryFallbackBackend
  rw [hbl]
  simp only [hch, hgr]
  rw [if_neg (by simp : ¬(true = false))]

theorem tryFallbackBackend_fail_of {dm : DialogManager} {ctx : DialogContext} {name : String} (i : Nat) (hnf : NilFreeRegistry dm) (hne : ¬ ChainEligible dm ctx name) :
    ∃ evs, tryFallbackBackend dm i name ctx = some ((emptyDialogResponse, false), evs)
      ∧ ∀ ev ∈ evs, ev.stage = Stage.chain i := by
  unfold tryFallbackBackend
  rcases hbl : backendsLookup dm.backends name with _ | ob
  · exact ⟨[], rfl, by simp⟩
  · cases ob with
    | none =>
      have hmem := hnf _ (backendsLookup_mem hbl)
      simp at hmem
    | some b =>
      by_cases hch : b.canHandle ctx = false
      · refine ⟨[{ stage := Stage.chain i, backend := name, method := "CanHandle" }], ?_, ?_⟩
        · simp [hch]
        · intro ev hev
          simp at hev
          subst hev
          rfl
      · have hch2 : b.canHandle ctx = true := by
          revert hch
          cases b.canHandle ctx <;> simp
        rcases hgr : b.generateResponse ctx with _ | r
        · refine ⟨[{ stage := Stage.chain i, backend := name, method := "CanHandle" },
                   { stage := Stage.chain i, backend := name, method := "GenerateResponse" }], ?_, ?_⟩
          · simp only [hch2]
            rw [if_neg (by simp : ¬(true = false)), hgr]
          · intro ev hev
            simp only [List.mem_cons, List.not_mem_nil, or_false] at hev
            rcases hev with rfl | rfl <;> rfl
        · exact absurd ⟨b, hbl, hch2, r, hgr⟩ hne

theorem tryFallbackChainAux_first_success {dm : DialogManager} {ctx : DialogContext} (hnf : NilFreeRegistry dm) :
    ∀ (names : List String) (k i : Nat) (name : String) (b : DialogBackend) (r : DialogResponse),
      names[i]? = some name →
      backendsLookup dm.backends name = some (some b) →
      b.canHandle ctx = true →
      b.generateResponse ctx = some r →
      (∀ j, j < i → ∀ nm, names[j]? = some nm → ¬ ChainEligible dm ctx nm) →
      ∃ evs, tryFallbackChainAux dm ctx k names = some (some (k + i, r), evs)
        ∧ ∀ ev ∈ evs, ∀ j, ev.stage = Stage.chain j → j ≤ k + i := by
  intro names
  induction names with
  | nil =>
    intro k i name b r hname
    simp at hname
  | cons n rest ih =>
    intro k i name b r hname hbl hch hgr hbefore
    cases i with
    | zero =>
      have hn : n = name := by simpa using hname
      subst hn
      unfold tryFallbackChainAux
      rw [tryFallbackBackend_success_intro k hbl hch hgr]
      refine ⟨[{ stage := Stage.chain k, backend := n, method := "CanHandle" },
               { stage := Stage.chain k, backend := n, method := "GenerateResponse" }], ?_, ?_⟩
      · simp only [Nat.add_zero]
      intro ev hev j hst
      have hevst : ev.stage = Stage.chain k := by
        simp only [List.mem_cons, List.not_mem_nil, or_false] at hev
        rcases hev with rfl | rfl <;> rfl
      rw [hevst] at hst
      injection hst with hkj
      omega
    | succ i2 =>
      have hne : ¬ ChainEligible dm ctx n := by
        refine hbefore 0 (Nat.succ_pos i2) n ?_
        simp
      obtain ⟨evs1, hf, hevs1⟩ := tryFallbackBackend_fail_of k hnf hne
      obtain ⟨evs2, hrec, hevs2⟩ :=
        ih (k + 1) i2 name b r (by simpa using hname) hbl hch hgr
          (fun j hj nm hnm => hbefore (j + 1) (Nat.succ_lt_succ hj) nm (by simpa using hnm))
      unfold tryFallbackChainAux
      rw [hf, hrec]
      have hidx : k + 1 + i2 = k + (i2 + 1) := by omega
      refine ⟨evs1 ++ evs2, by rw [hidx], ?_⟩
      intro ev hev j hst
      rcases List.mem_append.mp hev with hev | hev
      · have hk : Stage.chain k = Stage.chain j := by
          rw [← hst, hevs1 ev hev]
        injection hk with hkj
        omega
      · have := hevs2 ev hev j hst
        omega

/-- C5: when the default backend yields no accepted response, GenerateDialog
returns the response of the first fallback-chain entry that is registered
non-nil, can handle the context, and returns no error — whatever its
confidence, including 0 — and no chain entry after it is invoked. -/
theorem generateDialog_chain_first_success (dm : DialogManager) (ctx : DialogContext) (nowNano : Nat) (i : Nat) (name : String) (b : DialogBackend) (r : DialogResponse)
    (hnf : NilFreeRegistry dm)
    (hdf : ∃ evs0, tryDefaultBackend dm ctx = some ((emptyDialogResponse, false), evs0))
    (hname : dm.fallbackChain[i]? = some name)
    (hbl : backendsLookup dm.backends name = some (some b))
    (hch : b.canHandle ctx = true)
    (hgr : b.generateResponse ctx = some r)
    (hbefore : ∀ j, j < i → ∀ nm, dm.fallbackChain[j]? = some nm → ¬ ChainEligible dm ctx nm) :
    ∃ o, generateDialog dm ctx nowNano = some o
      ∧ o.response = r ∧ o.stage = Stage.chain i
      ∧ ∀ ev ∈ o.calls, ∀ j, ev.stage = Stage.chain j → j ≤ i := by
  obtain ⟨evs0, h0⟩ := hdf
  obtain ⟨evs, haux, hevs⟩ :=
    tryFallbackChainAux_first_success hnf dm.fallbackChain 0 i name b r hname hbl hch hgr hbefore
  have hev0 := tryDefaultBackend_events h0
  unfold generateDialog
  rw [h0, haux]
  simp only [Nat.zero_add] at hevs ⊢
  refine ⟨_, rfl, rfl, rfl, ?_⟩
  intro ev hev j hst
  rcases List.mem_append.mp hev with hev | hev
  · rw [hev0 ev hev] at hst
    exact absurd hst (by simp)
  · exact hevs ev hev j hst

/-- Witness for C4: the 0.9-confidence default short-circuits. -/
theorem generateDialog_primary_iff_witness :
    DefaultAccepts dmPrimary ctxOneFallback
    ∧ (∃ o, generateDialog dmPrimary ctxOneFallback 0 = some o ∧ o.stage = Stage.primary) :=
  have hacc : DefaultAccepts dmPrimary ctxOneFallback :=
    ⟨by decide, backendHigh, rfl, rfl, responseHigh, rfl, by norm_num [responseHigh, emptyDialogResponse]⟩
  ⟨hacc, (generateDialog_primary_iff dmPrimary ctxOneFallback 0).1.mpr hacc⟩

/-- Witness for C5: the chain answers from index 1 with confidence 0. -/
theorem generateDialog_chain_first_success_witness :
    ∃ o, generateDialog dmChain ctxOneFallback 0 = some o
      ∧ o.response = responseLow ∧ o.stage = Stage.chain 1
      ∧ ∀ ev ∈ o.calls, ∀ j, ev.stage = Stage.chain j → j ≤ 1 := by
  refine generateDialog_chain_first_success dmChain ctxOneFallback 0 1 "f1" backendLow responseLow
    (by decide) ⟨[{ stage := Stage.primary, backend := "main", method := "CanHandle" }], rfl⟩
    rfl rfl rfl rfl ?_
  intro j hj nm hnm helig
  have hj0 : j = 0 := by omega
  subst hj0
  have hnm2 : nm = "f0" := (Option.some.inj hnm).symm
  subst hnm2
  obtain ⟨b, hb, hchh, -⟩ := helig
  simp only [dmChain, backendsLookup] at hb
  norm_num at hb
  subst hb
  simp [backendOff] at hchh

/-! C10 — the store after Close.  Close sets the conversations map to nil;
a later AddExchange reads the nil map (fine), then panics inserting into it. -/

/-- C10: AddExchange on a closed store panics on the nil-map write instead of
recording the exchange or returning, for every session ID, while Close itself
is idempotent — calling it again is safe and changes nothing. -/
theorem addExchange_after_close_panics :
    ∀ (cm : ContextManager) (interactionID trigger response : String) (now : Int),
      addExchange (close cm) interactionID trigger response now = none
      ∧ close (close cm) = close cm := by
  intro cm interactionID trigger response now
  exact ⟨rfl, rfl⟩

end Minilm
